import Mathlib

/-!
Verification of the toy web server (src/main.rs): a fixed-size thread pool
driving a connection handler, plus an accept loop with cooperative shutdown.

The HTTP-facing functions (handle_connection, response_file, the accept loop
body of main) are embedded as pure Lean functions.  Effects are made explicit:
the file system is a function from file names to Option String (none = the
file cannot be read), the stream input is the outcome of the first
reader.lines().next() call, and the observable behaviour of a connection is a
ConnOutcome value (panicked / logged-and-returned / wrote-a-response).

The ThreadPool (Worker::new, ThreadPool::new, ThreadPool::run, Drop for
ThreadPool) is embedded as a small-step transition system over PoolState, with
one step constructor per atomic action the Rust code can take, and invariants
proved over all reachable states.
-/

namespace ToyWebServer

/-! ### Connection handling (handle_connection, response_file in src/main.rs) -/

/-- Observable outcome of handling one connection.  `panicked` models an
`unwrap` failure terminating the thread (nothing further is written);
`logged msg` models the error branch that prints `msg` and returns without a
response; `wrote response delayed` models a response string written to the
stream, with `delayed = true` when `thread::sleep` ran first. -/
inductive ConnOutcome
  | panicked
  | logged (msg : String)
  | wrote (response : String) (delayed : Bool)
  deriving DecidableEq, Repr

/-- The route classification inside `handle_connection`: the match on the
request line returning the resource file name, the status phrase, and whether
the branch sleeps first (the `GET /sleep HTTP/1.1` arm calls `thread::sleep`
before producing its tuple). -/
def route (request : String) : String × String × Bool :=
  if request = "GET / HTTP/1.1" then ("index.html", "200 OK", false)
  else if request = "GET /sleep HTTP/1.1" then ("sleep.html", "200 OK", true)
  else ("404.html", "404 NOT FOUND", false)

/-- The response string `response_file` builds:
`format!("{status_line}\r\n{content_len_header}\r\n\r\n{html}\r\n\r\n")` with
`status_line = format!("HTTP/1.1 {status}")` and
`content_len_header = format!("Content-Length: {}", html.len())`.
Rust `String::len` is the UTF-8 byte length, hence `String.utf8ByteSize`. -/
def response_body (html status : String) : String :=
  let status_line := "HTTP/1.1 " ++ status
  let content_len_header := "Content-Length: " ++ toString html.utf8ByteSize
  status_line ++ "\r\n" ++ content_len_header ++ "\r\n\r\n" ++ html ++ "\r\n\r\n"

/-- `response_file(stream, fname, status)`: reads the file with
`fs::read_to_string(fname).unwrap()` and writes `response_body`.  The file
system is the explicit argument `fs`; when `fs fname = none` the `unwrap`
panics before anything is written, modelled as result `none`. -/
def response_file (fs : String → Option String) (fname status : String) :
    Option String :=
  match fs fname with
  | none => none
  | some html => some (response_body html status)

/-- `handle_connection(stream)`.  `firstLine` is the outcome of
`reader.lines().next()`: `none` when the stream ended before any line
(`next()` returned `None`, so `.unwrap()` panics), `some (.error e)` when the
read failed (logged, no response), `some (.ok request)` when a request line
was read (routed and answered via `response_file`). -/
def handle_connection (fs : String → Option String)
    (firstLine : Option (Except String String)) : ConnOutcome :=
  match firstLine with
  | none => ConnOutcome.panicked
  | some (Except.error err) =>
      ConnOutcome.logged ("Handle connection error: " ++ err)
  | some (Except.ok request) =>
      let r := route request
      match response_file fs r.1 r.2.1 with
      | none => ConnOutcome.panicked
      | some response => ConnOutcome.wrote response r.2.2

/-! ### The accept loop body (main in src/main.rs) -/

/-- Outcome of one `tcp_listener.incoming()` poll on the non-blocking
listener: a connection, a `WouldBlock` error, or some other accept error. -/
inductive AcceptResult
  | conn (stream : Nat)
  | wouldBlock
  | otherErr (msg : String)
  deriving DecidableEq, Repr

/-- What one iteration of the accept loop does next. -/
inductive LoopAction
  | submitAndContinue (stream : Nat)
  | breakLoop
  | yieldAndContinue
  | logAndContinue (msg : String)
  deriving DecidableEq, Repr

/-- One iteration of the `for stream in tcp_listener.incoming()` loop in
`main`: `Ok(stream)` submits the connection to the pool and continues;
`WouldBlock` breaks out when the shutdown flag is set and otherwise calls
`thread::yield_now()` and continues; any other error is printed and the loop
continues. -/
def accept_step (res : AcceptResult) (shouldExit : Bool) : LoopAction :=
  match res with
  | AcceptResult.conn s => LoopAction.submitAndContinue s
  | AcceptResult.wouldBlock =>
      if shouldExit then LoopAction.breakLoop else LoopAction.yieldAndContinue
  | AcceptResult.otherErr msg =>
      LoopAction.logAndContinue ("Failed connection " ++ msg)

/-! ### The thread pool (Worker, ThreadPool, Drop for ThreadPool)

Jobs are identified by opaque natural-number ids.  A worker thread is in one
of three states, exactly the loop in `Worker::new`: blocked on
`receiver.lock().unwrap().recv()` (waiting), running a dequeued job
(executing), or returned from the loop after `recv` yielded `Err`
(exited).  The lock guard in `let f = receiver.lock().unwrap().recv();` is a
temporary dropped at the end of the statement, so the lock is not held while
the job runs, and a dequeue is one atomic step. -/

/-- State of one worker thread (the loop body in `Worker::new`). -/
inductive WStatus
  | waiting
  | executing (job : Nat)
  | exited
  deriving DecidableEq, Repr

/-- Progress of the tearing-down thread through `Drop for ThreadPool`:
`running` (drop not called yet), `dropping k` (the sender has been taken and
dropped, and the first `k` workers have been joined), `done` (the drop body
returned). -/
inductive MainPhase
  | running
  | dropping (k : Nat)
  | done
  deriving DecidableEq, Repr

/-- Global state of a `ThreadPool` together with its channel and workers.
`senderOpen` is whether `self.tx` is `Some` (the sending half not yet taken
and dropped); `queue` is the buffered contents of the mpsc channel (FIFO);
`workers` are the worker thread states; `submitted` and `executed` are
history logs of the job ids successfully sent and of the jobs whose closure
call `f()` has returned. -/
structure PoolState where
  senderOpen : Bool
  queue : List Nat
  workers : List WStatus
  submitted : List Nat
  executed : List Nat
  phase : MainPhase
  deriving DecidableEq, Repr

/-- The state `ThreadPool::new(size)` establishes once all spawned workers
have blocked on their first `recv`: the channel is fresh and empty, the
sender is held by the pool, and each of the `size` workers is waiting. -/
def initState (size : Nat) : PoolState :=
  { senderOpen := true
    queue := []
    workers := List.replicate size WStatus.waiting
    submitted := []
    executed := []
    phase := MainPhase.running }

/-- `ThreadPool::new(size)`: first `assert!(size > 0, "size <= 0")` panics on
zero; then, for each `i in 0..size`, the worker id is computed as
`(i + 1).try_into::<u32>().unwrap()`, which panics as soon as `i + 1` exceeds
`u32::MAX = 2 ^ 32 - 1` — the largest id is `size`, so this second panic
fires exactly when `size ≥ 2 ^ 32`.  Otherwise the channel and the `size`
workers are created.  Panics are modelled as `Except.error` tagged with the
panic site (the assertion's message for the first; a label standing for the
`TryFromIntError` unwrap panic for the second). -/
def ThreadPool.new (size : Nat) : Except String PoolState :=
  if size > 0 then
    if size < 2 ^ 32 then Except.ok (initState size)
    else Except.error "worker id exceeds u32 range"
  else Except.error "size <= 0"

/-- `ThreadPool::run(job)`: `if let Some(tx) = &self.tx` sends the boxed job
and returns `Ok(())`, else returns `Err("sender already dropped")`.  While
the sender exists the workers hold the receiving end, so `tx.send(..)`
succeeds and `unwrap` does not panic; the send appends to the channel
queue. -/
def ThreadPool.run (s : PoolState) (job : Nat) : Except String Unit × PoolState :=
  if s.senderOpen then
    (Except.ok (),
      { s with queue := s.queue ++ [job], submitted := s.submitted ++ [job] })
  else
    (Except.error "sender already dropped", s)

/-- One atomic step of the pool system.  `submit` is a successful
`ThreadPool::run`; `dequeue` is a worker returning from `recv` with `Ok` (the
channel is FIFO, so the head is delivered); `finish` is the job closure
returning, after which the worker loops back to `recv`; `wexit` is `recv`
returning `Err`, which happens exactly when the sender is dropped and the
channel buffer is empty; `closeSender` is `let tx = self.tx.take(); drop(tx);`
at the start of `Drop for ThreadPool`; `joinWorker` is one
`thread.join().unwrap()` returning, which it does only once that worker
thread has exited; `finishDrop` is the drop body returning after the loop
over workers is exhausted. -/
inductive Step : PoolState → PoolState → Prop
  | submit (s : PoolState) (j : Nat) (hs : s.senderOpen = true) :
      Step s { s with queue := s.queue ++ [j], submitted := s.submitted ++ [j] }
  | dequeue (s : PoolState) (i j : Nat) (rest : List Nat)
      (hw : s.workers[i]? = some WStatus.waiting)
      (hq : s.queue = j :: rest) :
      Step s { s with queue := rest, workers := s.workers.set i (WStatus.executing j) }
  | finish (s : PoolState) (i j : Nat)
      (hw : s.workers[i]? = some (WStatus.executing j)) :
      Step s { s with executed := s.executed ++ [j], workers := s.workers.set i WStatus.waiting }
  | wexit (s : PoolState) (i : Nat)
      (hw : s.workers[i]? = some WStatus.waiting)
      (hs : s.senderOpen = false) (hq : s.queue = []) :
      Step s { s with workers := s.workers.set i WStatus.exited }
  | closeSender (s : PoolState) (hp : s.phase = MainPhase.running) :
      Step s { s with senderOpen := false, phase := MainPhase.dropping 0 }
  | joinWorker (s : PoolState) (k : Nat) (hp : s.phase = MainPhase.dropping k)
      (hk : k < s.workers.length)
      (hw : s.workers[k]? = some WStatus.exited) :
      Step s { s with phase := MainPhase.dropping (k + 1) }
  | finishDrop (s : PoolState) (k : Nat) (hp : s.phase = MainPhase.dropping k)
      (hk : s.workers.length ≤ k) :
      Step s { s with phase := MainPhase.done }

/-- States reachable from a freshly constructed pool of `n` workers. -/
def Reachable (n : Nat) (s : PoolState) : Prop :=
  Relation.ReflTransGen Step (initState n) s

/-- The jobs currently being executed by some worker (in worker order). -/
def execJobs : List WStatus → List Nat
  | [] => []
  | WStatus.executing j :: ws => j :: execJobs ws
  | WStatus.waiting :: ws => execJobs ws
  | WStatus.exited :: ws => execJobs ws

theorem execJobs_replicate_waiting (n : Nat) :
    execJobs (List.replicate n WStatus.waiting) = [] := by
  induction n with
  | zero => rfl
  | succ m ih => simpa [List.replicate_succ, execJobs] using ih

theorem execJobs_set_executing (ws : List WStatus) (i j : Nat)
    (h : ws[i]? = some WStatus.waiting) :
    (↑(execJobs (ws.set i (WStatus.executing j))) : Multiset Nat) =
      j ::ₘ (↑(execJobs ws) : Multiset Nat) := by
  induction ws generalizing i with
  | nil => simp at h
  | cons w t ih =>
    cases i with
    | zero =>
      simp only [List.getElem?_cons_zero, Option.some.injEq] at h
      subst h
      simp [execJobs]
    | succ m =>
      simp only [List.getElem?_cons_succ] at h
      cases w with
      | waiting => simpa [execJobs, List.set] using ih m h
      | exited => simpa [execJobs, List.set] using ih m h
      | executing j2 =>
        have h2 := ih m h
        show (↑(j2 :: execJobs (t.set m (WStatus.executing j))) : Multiset Nat) =
          j ::ₘ ↑(j2 :: execJobs t)
        rw [← Multiset.cons_coe, ← Multiset.cons_coe, h2]
        exact Multiset.cons_swap j2 j _

theorem execJobs_set_waiting (ws : List WStatus) (i j : Nat)
    (h : ws[i]? = some (WStatus.executing j)) :
    (↑(execJobs ws) : Multiset Nat) =
      j ::ₘ (↑(execJobs (ws.set i WStatus.waiting)) : Multiset Nat) := by
  induction ws generalizing i with
  | nil => simp at h
  | cons w t ih =>
    cases i with
    | zero =>
      simp only [List.getElem?_cons_zero, Option.some.injEq] at h
      subst h
      simp [execJobs]
    | succ m =>
      simp only [List.getElem?_cons_succ] at h
      cases w with
      | waiting => simpa [execJobs, List.set] using ih m h
      | exited => simpa [execJobs, List.set] using ih m h
      | executing j2 =>
        have h2 := ih m h
        show (↑(j2 :: execJobs t) : Multiset Nat) =
          j ::ₘ ↑(j2 :: execJobs (t.set m WStatus.waiting))
        rw [← Multiset.cons_coe, ← Multiset.cons_coe, h2]
        exact Multiset.cons_swap j2 j _

theorem execJobs_set_exited (ws : List WStatus) (i : Nat)
    (h : ws[i]? = some WStatus.waiting) :
    execJobs (ws.set i WStatus.exited) = execJobs ws := by
  induction ws generalizing i with
  | nil => simp at h
  | cons w t ih =>
    cases i with
    | zero =>
      simp only [List.getElem?_cons_zero, Option.some.injEq] at h
      subst h
      simp [execJobs]
    | succ m =>
      simp only [List.getElem?_cons_succ] at h
      cases w with
      | waiting => simp [execJobs, List.set, ih m h]
      | exited => simp [execJobs, List.set, ih m h]
      | executing j2 => simp [execJobs, List.set, ih m h]

theorem execJobs_of_all_exited (ws : List WStatus)
    (h : ∀ i, i < ws.length → ws[i]? = some WStatus.exited) :
    execJobs ws = [] := by
  induction ws with
  | nil => rfl
  | cons w t ih =>
    have h0 := h 0 (Nat.succ_pos _)
    simp only [List.getElem?_cons_zero, Option.some.injEq] at h0
    subst h0
    have ht : ∀ i, i < t.length → t[i]? = some WStatus.exited := by
      intro i hi
      have := h (i + 1) (Nat.succ_lt_succ hi)
      simpa using this
    simp [execJobs, ih ht]

theorem lt_length_of_getElem_eq_some {α : Type} {l : List α} {i : Nat} {b : α}
    (h : l[i]? = some b) : i < l.length := by
  rcases List.getElem?_eq_some.mp h with ⟨h1, _⟩
  exact h1

theorem coe_append (l1 l2 : List Nat) :
    ((l1 ++ l2 : List Nat) : Multiset Nat) = ↑l1 + ↑l2 := rfl

/-- Invariant of the pool system, preserved by every step.
`account` is the conservation law: every job ever successfully sent is either
already executed, still buffered in the channel, or being executed right now.
`exitedQuiet`: a worker exits only once the sender is dropped and the channel
is empty, and both stay that way.  `joined`: while the drop loop is at worker
`k`, every earlier worker has been observed exited.  `donePh`: when the drop
body has returned, every worker has exited. -/
structure PoolInv (n : Nat) (s : PoolState) : Prop where
  wlen : s.workers.length = n
  senderPhase : s.senderOpen = true ↔ s.phase = MainPhase.running
  account : (↑s.submitted : Multiset Nat) =
    ↑s.executed + ↑s.queue + ↑(execJobs s.workers)
  exitedQuiet : ∀ i : Nat, s.workers[i]? = some WStatus.exited →
    s.senderOpen = false ∧ s.queue = []
  joined : ∀ k : Nat, s.phase = MainPhase.dropping k →
    ∀ i : Nat, i < k → s.workers[i]? = some WStatus.exited
  donePh : s.phase = MainPhase.done →
    ∀ i : Nat, i < s.workers.length → s.workers[i]? = some WStatus.exited

theorem inv_init (n : Nat) : PoolInv n (initState n) := by
  refine ⟨List.length_replicate n _, by simp [initState], ?_, ?_, ?_, ?_⟩
  · show (↑([] : List Nat) : Multiset Nat) =
      ↑([] : List Nat) + ↑([] : List Nat) + ↑(execJobs (List.replicate n WStatus.waiting))
    rw [execJobs_replicate_waiting]
    simp
  · intro i hi
    have hi2 : (List.replicate n WStatus.waiting)[i]? = some WStatus.exited := hi
    rcases List.getElem?_eq_some.mp hi2 with ⟨h1, h2⟩
    rw [List.getElem_replicate] at h2
    cases h2
  · intro k hk
    have hk2 : MainPhase.running = MainPhase.dropping k := hk
    cases hk2
  · intro hd
    have hd2 : MainPhase.running = MainPhase.done := hd
    cases hd2

theorem inv_step {n : Nat} {s s2 : PoolState} (inv : PoolInv n s) (h : Step s s2) :
    PoolInv n s2 := by
  cases h with
  | submit j hs =>
    refine ⟨inv.wlen, inv.senderPhase, ?_, ?_, inv.joined, inv.donePh⟩
    · show (↑(s.submitted ++ [j]) : Multiset Nat) =
        ↑s.executed + ↑(s.queue ++ [j]) + ↑(execJobs s.workers)
      rw [coe_append, coe_append, inv.account]
      abel
    · intro i hi
      have hi2 : s.workers[i]? = some WStatus.exited := hi
      have hquiet := (inv.exitedQuiet i hi2).1
      rw [hquiet] at hs
      cases hs
  | dequeue i j rest hw hq =>
    have hi : i < s.workers.length := lt_length_of_getElem_eq_some hw
    refine ⟨?_, inv.senderPhase, ?_, ?_, ?_, ?_⟩
    · show (s.workers.set i (WStatus.executing j)).length = n
      rw [List.length_set]
      exact inv.wlen
    · show (↑s.submitted : Multiset Nat) =
        ↑s.executed + ↑rest + ↑(execJobs (s.workers.set i (WStatus.executing j)))
      rw [execJobs_set_executing s.workers i j hw]
      have hacc := inv.account
      rw [hq] at hacc
      rw [hacc, ← Multiset.cons_coe, ← Multiset.singleton_add, ← Multiset.singleton_add]
      abel
    · intro i2 hi2
      exfalso
      have hi3 : (s.workers.set i (WStatus.executing j))[i2]? = some WStatus.exited := hi2
      by_cases hcase : i2 = i
      · subst hcase
        rw [List.getElem?_set_self hi] at hi3
        cases hi3
      · rw [List.getElem?_set_ne (fun he => hcase he.symm)] at hi3
        have hquiet := (inv.exitedQuiet i2 hi3).2
        rw [hq] at hquiet
        cases hquiet
    · intro k hp i2 hlt
      have hp2 : s.phase = MainPhase.dropping k := hp
      have hold := inv.joined k hp2 i2 hlt
      have hne : i ≠ i2 := by
        intro he
        subst he
        rw [hw] at hold
        cases hold
      show (s.workers.set i (WStatus.executing j))[i2]? = some WStatus.exited
      rw [List.getElem?_set_ne hne]
      exact hold
    · intro hp i2 hlt
      exfalso
      have hp2 : s.phase = MainPhase.done := hp
      have hold := inv.donePh hp2 i hi
      rw [hw] at hold
      cases hold
  | finish i j hw =>
    have hi : i < s.workers.length := lt_length_of_getElem_eq_some hw
    refine ⟨?_, inv.senderPhase, ?_, ?_, ?_, ?_⟩
    · show (s.workers.set i WStatus.waiting).length = n
      rw [List.length_set]
      exact inv.wlen
    · show (↑s.submitted : Multiset Nat) =
        ↑(s.executed ++ [j]) + ↑s.queue + ↑(execJobs (s.workers.set i WStatus.waiting))
      have hacc := inv.account
      rw [execJobs_set_waiting s.workers i j hw] at hacc
      rw [hacc, coe_append, Multiset.coe_singleton, ← Multiset.singleton_add]
      abel
    · intro i2 hi2
      have hi3 : (s.workers.set i WStatus.waiting)[i2]? = some WStatus.exited := hi2
      by_cases hcase : i2 = i
      · subst hcase
        rw [List.getElem?_set_self hi] at hi3
        cases hi3
      · rw [List.getElem?_set_ne (fun he => hcase he.symm)] at hi3
        exact inv.exitedQuiet i2 hi3
    · intro k hp i2 hlt
      have hp2 : s.phase = MainPhase.dropping k := hp
      have hold := inv.joined k hp2 i2 hlt
      have hne : i ≠ i2 := by
        intro he
        subst he
        rw [hw] at hold
        cases hold
      show (s.workers.set i WStatus.waiting)[i2]? = some WStatus.exited
      rw [List.getElem?_set_ne hne]
      exact hold
    · intro hp i2 hlt
      exfalso
      have hp2 : s.phase = MainPhase.done := hp
      have hold := inv.donePh hp2 i hi
      rw [hw] at hold
      cases hold
  | wexit i hw hs hq =>
    have hi : i < s.workers.length := lt_length_of_getElem_eq_some hw
    refine ⟨?_, inv.senderPhase, ?_, ?_, ?_, ?_⟩
    · show (s.workers.set i WStatus.exited).length = n
      rw [List.length_set]
      exact inv.wlen
    · show (↑s.submitted : Multiset Nat) =
        ↑s.executed + ↑s.queue + ↑(execJobs (s.workers.set i WStatus.exited))
      rw [execJobs_set_exited s.workers i hw]
      exact inv.account
    · intro i2 _
      exact ⟨hs, hq⟩
    · intro k hp i2 hlt
      have hp2 : s.phase = MainPhase.dropping k := hp
      by_cases hcase : i2 = i
      · subst hcase
        show (s.workers.set i2 WStatus.exited)[i2]? = some WStatus.exited
        rw [List.getElem?_set_self hi]
      · show (s.workers.set i WStatus.exited)[i2]? = some WStatus.exited
        rw [List.getElem?_set_ne (fun he => hcase he.symm)]
        exact inv.joined k hp2 i2 hlt
    · intro hp i2 hlt
      have hp2 : s.phase = MainPhase.done := hp
      have hlt2 : i2 < (s.workers.set i WStatus.exited).length := hlt
      rw [List.length_set] at hlt2
      by_cases hcase : i2 = i
      · subst hcase
        show (s.workers.set i2 WStatus.exited)[i2]? = some WStatus.exited
        rw [List.getElem?_set_self hi]
      · show (s.workers.set i WStatus.exited)[i2]? = some WStatus.exited
        rw [List.getElem?_set_ne (fun he => hcase he.symm)]
        exact inv.donePh hp2 i2 hlt2
  | closeSender hp =>
    refine ⟨inv.wlen, ?_, inv.account, ?_, ?_, ?_⟩
    · show (false = true) ↔ (MainPhase.dropping 0 = MainPhase.running)
      simp
    · intro i hi
      have hi2 : s.workers[i]? = some WStatus.exited := hi
      exact ⟨rfl, (inv.exitedQuiet i hi2).2⟩
    · intro k hk i hlt
      have hk2 : MainPhase.dropping 0 = MainPhase.dropping k := hk
      injection hk2 with he
      rw [← he] at hlt
      exact absurd hlt (Nat.not_lt_zero i)
    · intro hd
      have hd2 : MainPhase.dropping 0 = MainPhase.done := hd
      cases hd2
  | joinWorker k hp hk hw =>
    have hso : s.senderOpen = false := by
      rcases Bool.eq_false_or_eq_true s.senderOpen with hb | hb
      · have hr := inv.senderPhase.mp hb
        rw [hp] at hr
        cases hr
      · exact hb
    refine ⟨inv.wlen, ?_, inv.account, inv.exitedQuiet, ?_, ?_⟩
    · show (s.senderOpen = true) ↔ (MainPhase.dropping (k + 1) = MainPhase.running)
      rw [hso]
      simp
    · intro k2 hp2 i hlt
      have hp3 : MainPhase.dropping (k + 1) = MainPhase.dropping k2 := hp2
      injection hp3 with he
      rw [← he] at hlt
      rcases Nat.lt_succ_iff_lt_or_eq.mp hlt with hcase | hcase
      · exact inv.joined k hp i hcase
      · subst hcase
        exact hw
    · intro hd
      have hd2 : MainPhase.dropping (k + 1) = MainPhase.done := hd
      cases hd2
  | finishDrop k hp hk =>
    have hso : s.senderOpen = false := by
      rcases Bool.eq_false_or_eq_true s.senderOpen with hb | hb
      · have hr := inv.senderPhase.mp hb
        rw [hp] at hr
        cases hr
      · exact hb
    refine ⟨inv.wlen, ?_, inv.account, inv.exitedQuiet, ?_, ?_⟩
    · show (s.senderOpen = true) ↔ (MainPhase.done = MainPhase.running)
      rw [hso]
      simp
    · intro k2 hk2 i hlt
      have hk3 : MainPhase.done = MainPhase.dropping k2 := hk2
      cases hk3
    · intro _ i hlt
      have hlt2 : i < s.workers.length := hlt
      exact inv.joined k hp i (Nat.lt_of_lt_of_le hlt2 hk)

theorem inv_reachable {n : Nat} {s : PoolState} (h : Reachable n s) : PoolInv n s := by
  have h2 : Relation.ReflTransGen Step (initState n) s := h
  clear h
  induction h2 with
  | refl => exact inv_init n
  | tail _ hstep ih => exact inv_step ih hstep

theorem done_stuck {n : Nat} {s : PoolState} (inv : PoolInv n s)
    (hd : s.phase = MainPhase.done) : ∀ s2, ¬ Step s s2 := by
  intro s2 hstep
  cases hstep with
  | submit j hs =>
    have hr := inv.senderPhase.mp hs
    rw [hd] at hr
    cases hr
  | dequeue i j rest hw hq =>
    have hold := inv.donePh hd i (lt_length_of_getElem_eq_some hw)
    rw [hw] at hold
    cases hold
  | finish i j hw =>
    have hold := inv.donePh hd i (lt_length_of_getElem_eq_some hw)
    rw [hw] at hold
    cases hold
  | wexit i hw hs hq =>
    have hold := inv.donePh hd i (lt_length_of_getElem_eq_some hw)
    rw [hw] at hold
    cases hold
  | closeSender hp =>
    rw [hd] at hp
    cases hp
  | joinWorker k hp hk hw =>
    rw [hd] at hp
    cases hp
  | finishDrop k hp hk =>
    rw [hd] at hp
    cases hp

/-! ### The claims -/

/-- C1: when the pool is torn down, `Drop for ThreadPool` first drops the
sender (`closeSender` precedes every `dropping` phase) and then joins every
worker; in any reachable state of a pool of `n > 0` workers in which the drop
body has returned (`phase = done`): the sender is closed, the multiset of
executed jobs equals the multiset of submitted jobs (no job lost, none
invented), every worker thread has exited (no thread outlives the pool), and
no further step of any kind — in particular no job execution — is possible. -/
theorem C1_teardown_joins_all_and_loses_no_job (n : Nat) (s : PoolState)
    (hn : 0 < n) (hreach : Reachable n s) (hdone : s.phase = MainPhase.done) :
    s.senderOpen = false ∧ s.submitted.Perm s.executed ∧
      (∀ i : Nat, i < s.workers.length → s.workers[i]? = some WStatus.exited) ∧
      (∀ s2, ¬ Step s s2) := by
  have inv := inv_reachable hreach
  have hall := inv.donePh hdone
  have hso : s.senderOpen = false := by
    rcases Bool.eq_false_or_eq_true s.senderOpen with hb | hb
    · have hr := inv.senderPhase.mp hb
      rw [hdone] at hr
      cases hr
    · exact hb
  have h0 : (0 : Nat) < s.workers.length := by
    rw [inv.wlen]
    exact hn
  have hq : s.queue = [] := (inv.exitedQuiet 0 (hall 0 h0)).2
  have hexec : execJobs s.workers = [] := execJobs_of_all_exited s.workers hall
  have hacc := inv.account
  rw [hq, hexec] at hacc
  have hcoe : (↑s.submitted : Multiset Nat) = ↑s.executed := by
    rw [hacc]
    simp
  exact ⟨hso, Multiset.coe_eq_coe.mp hcoe, hall, done_stuck inv hdone⟩

/-- A complete concrete lifecycle of a one-worker pool: construct, submit job
7, have the worker run it, drop the pool (sender closed, worker exits, worker
joined, drop returns). -/
def traceFinal : PoolState :=
  { senderOpen := false
    queue := []
    workers := [WStatus.exited]
    submitted := [7]
    executed := [7]
    phase := MainPhase.done }

theorem traceFinal_reachable : Reachable 1 traceFinal := by
  show Relation.ReflTransGen Step (initState 1) traceFinal
  refine Relation.ReflTransGen.head (Step.submit (initState 1) 7 rfl) ?_
  refine Relation.ReflTransGen.head
    (Step.dequeue (PoolState.mk true [7] [WStatus.waiting] [7] [] MainPhase.running)
      0 7 [] rfl rfl) ?_
  refine Relation.ReflTransGen.head
    (Step.finish (PoolState.mk true [] [WStatus.executing 7] [7] [] MainPhase.running)
      0 7 rfl) ?_
  refine Relation.ReflTransGen.head
    (Step.closeSender (PoolState.mk true [] [WStatus.waiting] [7] [7] MainPhase.running)
      rfl) ?_
  refine Relation.ReflTransGen.head
    (Step.wexit (PoolState.mk false [] [WStatus.waiting] [7] [7] (MainPhase.dropping 0))
      0 rfl rfl rfl) ?_
  refine Relation.ReflTransGen.head
    (Step.joinWorker (PoolState.mk false [] [WStatus.exited] [7] [7] (MainPhase.dropping 0))
      0 rfl (by decide) rfl) ?_
  refine Relation.ReflTransGen.head
    (Step.finishDrop (PoolState.mk false [] [WStatus.exited] [7] [7] (MainPhase.dropping 1))
      1 rfl (by decide)) ?_
  exact Relation.ReflTransGen.refl

/-- Witness for C1: the one-worker lifecycle trace reaches a done state and
the theorem's conclusions hold there concretely. -/
theorem C1_witness :
    0 < 1 ∧ Reachable 1 traceFinal ∧ traceFinal.phase = MainPhase.done ∧
      (traceFinal.senderOpen = false ∧
        traceFinal.submitted.Perm traceFinal.executed ∧
        (∀ i : Nat, i < traceFinal.workers.length →
          traceFinal.workers[i]? = some WStatus.exited) ∧
        (∀ s2, ¬ Step traceFinal s2)) :=
  ⟨Nat.one_pos, traceFinal_reachable, rfl,
    C1_teardown_joins_all_and_loses_no_job 1 traceFinal Nat.one_pos
      traceFinal_reachable rfl⟩

/-- A pool state in which teardown has begun: the sender has been taken and
dropped, the worker not yet joined. -/
def closedState : PoolState :=
  { senderOpen := false
    queue := []
    workers := [WStatus.waiting]
    submitted := []
    executed := []
    phase := MainPhase.dropping 0 }

/-- C2: once teardown has begun (`self.tx` has been taken, so the sender is
gone), `ThreadPool::run` takes the `else` branch and returns the
closed-channel error `Err("sender already dropped")` as an ordinary value —
it neither sends, nor blocks, nor panics, and the state is untouched. -/
theorem C2_run_after_teardown_errors (s : PoolState) (j : Nat)
    (h : s.senderOpen = false) :
    ThreadPool.run s j = (Except.error "sender already dropped", s) := by
  unfold ThreadPool.run
  rw [h]
  simp

/-- Witness for C2 at a concrete torn-down state. -/
theorem C2_witness :
    closedState.senderOpen = false ∧
      ThreadPool.run closedState 42 =
        (Except.error "sender already dropped", closedState) :=
  ⟨rfl, C2_run_after_teardown_errors closedState 42 rfl⟩

/-- C3 counterexample: the claim says construction proceeds for every
worker_count > 0, but at the concrete input `2 ^ 32` the source panics at the
`(i + 1).try_into::<u32>().unwrap()` worker-id conversion (the assertion
itself passed): construction yields that panic, not a pool. -/
theorem C3_counterexample :
    0 < 2 ^ 32 ∧
      ThreadPool.new (2 ^ 32) = Except.error "worker id exceeds u32 range" ∧
      ThreadPool.new (2 ^ 32) ≠ Except.ok (initState (2 ^ 32)) := by
  have h1 : ThreadPool.new (2 ^ 32) = Except.error "worker id exceeds u32 range" := by
    unfold ThreadPool.new
    rw [if_pos (by norm_num), if_neg (by norm_num)]
  refine ⟨by norm_num, h1, ?_⟩
  rw [h1]
  intro h
  cases h

/-- C3 (amended): `ThreadPool::new(0)` fails fast with the
process-terminating `assert!(size > 0, "size <= 0")` (not a recoverable
value); for every positive size the assertion passes, and construction
proceeds exactly when the size is below `2 ^ 32` — at `2 ^ 32` and above it
still panics, at the u32 worker-id conversion rather than at the
assertion. -/
theorem C3_new_asserts_positive :
    ThreadPool.new 0 = Except.error "size <= 0" ∧
      (∀ size : Nat, 0 < size → size < 2 ^ 32 →
        ThreadPool.new size = Except.ok (initState size)) ∧
      (∀ size : Nat, 2 ^ 32 ≤ size →
        ThreadPool.new size = Except.error "worker id exceeds u32 range") := by
  refine ⟨rfl, ?_, ?_⟩
  · intro size h1 h2
    unfold ThreadPool.new
    rw [if_pos h1, if_pos h2]
  · intro size h
    unfold ThreadPool.new
    rw [if_pos (Nat.lt_of_lt_of_le (by norm_num) h), if_neg (Nat.not_lt.mpr h)]

/-- Witness for C3: size 3 passes both the assertion and the id conversion;
size `2 ^ 32` passes the assertion but panics at the conversion. -/
theorem C3_witness :
    (0 < 3 ∧ 3 < 2 ^ 32 ∧ ThreadPool.new 3 = Except.ok (initState 3)) ∧
      (2 ^ 32 ≤ 2 ^ 32 ∧
        ThreadPool.new (2 ^ 32) = Except.error "worker id exceeds u32 range") :=
  ⟨⟨by norm_num, by norm_num,
      C3_new_asserts_positive.2.1 3 (by norm_num) (by norm_num)⟩,
    ⟨Nat.le_refl _, C3_new_asserts_positive.2.2 (2 ^ 32) (Nat.le_refl _)⟩⟩

/-- C4 counterexample: the claim says every positive worker_count yields a
pool of exactly that many workers, but at the concrete input `2 ^ 32`
construction panics at the u32 worker-id conversion and yields no pool at
all. -/
theorem C4_counterexample :
    0 < 2 ^ 32 ∧
      Except.map (fun p => p.workers.length) (ThreadPool.new (2 ^ 32)) ≠
        Except.ok (2 ^ 32) := by
  refine ⟨by norm_num, ?_⟩
  have h1 : ThreadPool.new (2 ^ 32) = Except.error "worker id exceeds u32 range" := by
    unfold ThreadPool.new
    rw [if_pos (by norm_num), if_neg (by norm_num)]
  rw [h1]
  intro h
  cases h

/-- C4 (amended): whenever `ThreadPool::new(size)` returns a pool — which it
does exactly for `0 < size < 2 ^ 32`, the other sizes panicking — that
pool has exactly `size` workers, and the worker count never changes
afterwards: every step of the system and every call to `ThreadPool::run`
(including the failing one) preserves the length of the workers vector.
`Drop` only takes the join handles out of the `Worker` values; it never
removes a `Worker` from the vector. -/
theorem C4_worker_count_fixed :
    (∀ (size : Nat) (p : PoolState), ThreadPool.new size = Except.ok p →
      p.workers.length = size) ∧
    (∀ s s2 : PoolState, Step s s2 → s2.workers.length = s.workers.length) ∧
    (∀ (s : PoolState) (j : Nat),
      (ThreadPool.run s j).2.workers.length = s.workers.length) := by
  refine ⟨?_, ?_, ?_⟩
  · intro size p h
    unfold ThreadPool.new at h
    split_ifs at h with h1 h2
    injection h with h3
    rw [← h3]
    simp [initState]
  · intro s s2 hstep
    cases hstep with
    | submit j hs => rfl
    | dequeue i j rest hw hq => simp
    | finish i j hw => simp
    | wexit i hw hs hq => simp
    | closeSender hp => rfl
    | joinWorker k hp hk hw => rfl
    | finishDrop k hp hk => rfl
  · intro s j
    unfold ThreadPool.run
    cases hb : s.senderOpen <;> simp [hb]

/-- Witness for C4: a successfully constructed pool of 2 has 2 workers, and
a concrete step (the close of the sender on a fresh one-worker pool)
preserves the count. -/
theorem C4_witness :
    ThreadPool.new 2 = Except.ok (initState 2) ∧
      (initState 2).workers.length = 2 ∧
      (PoolState.mk false [] [WStatus.waiting] [] []
          (MainPhase.dropping 0)).workers.length =
        (initState 1).workers.length :=
  ⟨rfl, C4_worker_count_fixed.1 2 (initState 2) rfl,
    C4_worker_count_fixed.2.1 (initState 1) _ (Step.closeSender (initState 1) rfl)⟩

/-- C5: the request-line classification of `handle_connection`: the exact
line `GET / HTTP/1.1` is answered `200 OK` with index.html and no delay; the
exact line `GET /sleep HTTP/1.1` is answered `200 OK` with sleep.html after
the sleep; every other line is answered `404 NOT FOUND` with 404.html.  The
resource content hypotheses say the named file is readable with content
`html`. -/
theorem C5_request_classification (fs : String → Option String) (html : String) :
    (fs "index.html" = some html →
      handle_connection fs (some (Except.ok "GET / HTTP/1.1")) =
        ConnOutcome.wrote (response_body html "200 OK") false) ∧
    (fs "sleep.html" = some html →
      handle_connection fs (some (Except.ok "GET /sleep HTTP/1.1")) =
        ConnOutcome.wrote (response_body html "200 OK") true) ∧
    (∀ request : String, request ≠ "GET / HTTP/1.1" →
      request ≠ "GET /sleep HTTP/1.1" → fs "404.html" = some html →
      handle_connection fs (some (Except.ok request)) =
        ConnOutcome.wrote (response_body html "404 NOT FOUND") false) := by
  refine ⟨?_, ?_, ?_⟩
  · intro hfs
    simp [handle_connection, route, response_file, hfs]
  · intro hfs
    simp [handle_connection, route, response_file, hfs]
  · intro request h1 h2 hfs
    have hroute : route request = ("404.html", "404 NOT FOUND", false) := by
      unfold route
      rw [if_neg h1, if_neg h2]
    simp [handle_connection, hroute, response_file, hfs]

/-- Concrete file system for the witnesses: every file reads as "hello". -/
def fsW : String → Option String := fun _ => some "hello"

/-- Witness for C5 at the three concrete request lines. -/
theorem C5_witness :
    handle_connection fsW (some (Except.ok "GET / HTTP/1.1")) =
        ConnOutcome.wrote (response_body "hello" "200 OK") false ∧
      handle_connection fsW (some (Except.ok "GET /sleep HTTP/1.1")) =
        ConnOutcome.wrote (response_body "hello" "200 OK") true ∧
      handle_connection fsW (some (Except.ok "POST / HTTP/1.1")) =
        ConnOutcome.wrote (response_body "hello" "404 NOT FOUND") false :=
  ⟨(C5_request_classification fsW "hello").1 rfl,
    (C5_request_classification fsW "hello").2.1 rfl,
    (C5_request_classification fsW "hello").2.2 "POST / HTTP/1.1"
      (by decide) (by decide) rfl⟩

/-- Modelled from the spec words of C6, for comparison with the code's
`response_body`: exactly three parts — a status line terminated by CRLF, a
Content-Length header carrying the byte length of the content terminated by
CRLF, one blank line (CRLF), then the resource body, and nothing more.  The
literal "\r\n\r\n" is the header line terminator followed by the blank
line. -/
def spec_three_part_response (html status : String) : String :=
  "HTTP/1.1 " ++ status ++ "\r\n" ++ "Content-Length: " ++
    toString html.utf8ByteSize ++ "\r\n\r\n" ++ html

/-- C6 counterexample: already on the empty resource content the code's
response is not the spec's exact three-part response — the code appends four
extra bytes after the body. -/
theorem C6_counterexample :
    response_body "" "200 OK" ≠ spec_three_part_response "" "200 OK" := by
  decide

/-- C6 (amended): `response_file` writes the three-part response — status
line, Content-Length header whose value is the byte length of the resource
content, blank line, body — followed by one extra trailing CRLF CRLF after
the body, which is not counted in Content-Length. -/
theorem C6_response_format (html status : String) :
    response_body html status =
      spec_three_part_response html status ++ "\r\n\r\n" := by
  simp [response_body, spec_three_part_response, String.append_assoc]
  rw [← String.append_assoc "\r\n" "Content-Length: ",
    show ("\r\n" ++ "Content-Length: " : String) = "\r\nContent-Length: " from rfl]

/-- C7: when reading the request line fails (`lines().next()` yields
`Some(Err(e))`), `handle_connection` prints the error and returns: the
outcome is `logged`, so no response bytes are written and nothing panics —
the failure is confined to this connection. -/
theorem C7_read_error_logged_no_response (fs : String → Option String)
    (err : String) :
    handle_connection fs (some (Except.error err)) =
      ConnOutcome.logged ("Handle connection error: " ++ err) := rfl

/-- C8: when the named resource file cannot be read,
`fs::read_to_string(fname).unwrap()` panics, terminating the process before
`write_all` runs: `response_file` yields `none` — no recoverable error value,
nothing written to the stream. -/
theorem C8_missing_resource_panics (fs : String → Option String)
    (fname status : String) (h : fs fname = none) :
    response_file fs fname status = none := by
  unfold response_file
  rw [h]

/-- Witness for C8 on a file system with no readable files. -/
theorem C8_witness :
    (fun _ => (none : Option String)) "index.html" = (none : Option String) ∧
      response_file (fun _ => none) "index.html" "200 OK" = none :=
  ⟨rfl, C8_missing_resource_panics (fun _ => none) "index.html" "200 OK" rfl⟩

/-- C9: the accept loop body breaks out of the loop exactly on a would-block
poll with the shutdown flag set; a would-block poll with the flag clear
yields and continues; any other accept error only logs and continues — it
can neither exit the loop nor panic, as its action is always
`logAndContinue`. -/
theorem C9_loop_exit_iff_wouldblock_and_flag :
    (∀ (res : AcceptResult) (flag : Bool),
      accept_step res flag = LoopAction.breakLoop ↔
        (res = AcceptResult.wouldBlock ∧ flag = true)) ∧
    (∀ (msg : String) (flag : Bool),
      accept_step (AcceptResult.otherErr msg) flag =
        LoopAction.logAndContinue ("Failed connection " ++ msg)) ∧
    accept_step AcceptResult.wouldBlock false = LoopAction.yieldAndContinue := by
  refine ⟨?_, fun msg flag => rfl, rfl⟩
  intro res flag
  cases res with
  | conn st => simp [accept_step]
  | wouldBlock => cases flag <;> simp [accept_step]
  | otherErr m => simp [accept_step]

/-- C10: if the stream reaches end-of-file before producing any line or
error, `reader.lines().next()` is `None` and the `.unwrap()` on it panics:
`handle_connection` neither logs nor writes on such a stream. -/
theorem C10_eof_panics (fs : String → Option String) :
    handle_connection fs none = ConnOutcome.panicked := rfl

end ToyWebServer
